import Mathlib

/-!
Shallow embedding of the BooksToScrape scraper of this repository:
src/web.py (rating lookup, page-URL derivation, pagination loop with
cancellation, per-item detail enrichment, MySQL sink) and
src/unnamed/part_000 (single-book entry mode and its URL dispatch).
HTTP and HTML parsing are abstracted into an environment: a listing
fetch maps a URL to a classified response whose body is the list of
parsed product_pod elements, and a detail fetch maps a URL to a
classified response whose body is the text of the availability element
when that markup is present.  The urljoin library routine is likewise a
parameter of the environment, since no verified property depends on its
internals.
-/

namespace BooksToScrape

/-- Model of the Python rstrip applied with a slash argument: drop every
trailing slash character (src/web.py line 45). -/
def pyRstripSlash (s : String) : String :=
  String.mk (((s.toList.reverse).dropWhile (fun c => c = '/')).reverse)

/-- Model of the Python rsplit on a slash keeping piece zero: everything
before the last slash, or the whole string when no slash occurs
(src/web.py line 57). -/
def pyBeforeLastSlash (s : String) : String :=
  let r := s.toList.reverse
  if r.contains '/' then String.mk (((r.dropWhile (fun c => c ≠ '/')).drop 1).reverse)
  else s

/-- Model of the Python strip with no argument: trim whitespace at both
ends. -/
def pyStrip (s : String) : String :=
  String.mk (((s.toList.dropWhile Char.isWhitespace).reverse.dropWhile Char.isWhitespace).reverse)

/-- Model of the Python split with no argument: the maximal
whitespace-free words of the text, in order, with an accumulator for the
word being read. -/
def pyWords : List Char → List Char → List (List Char)
  | acc, [] => if acc.isEmpty then [] else [acc.reverse]
  | acc, c :: t =>
    if c.isWhitespace then
      if acc.isEmpty then pyWords [] t else acc.reverse :: pyWords [] t
    else pyWords (c :: acc) t

/-- Whitespace normalization used for availability text: join the words
of the text with single spaces (src/web.py line 108). -/
def normalizeWs (s : String) : String :=
  String.intercalate " " ((pyWords [] s.toList).map String.mk)

/-- Model of the Python endswith test. -/
def pyEndsWith (s suf : String) : Bool :=
  List.isSuffixOf suf.toList s.toList

/-- Occurrence of a character list inside another, anchored nowhere. -/
def listHasSub (sub : List Char) : List Char → Bool
  | [] => sub.isEmpty
  | c :: t => List.isPrefixOf sub (c :: t) || listHasSub sub t

/-- Model of the Python membership test of one string inside another. -/
def pyContains (s sub : String) : Bool :=
  listHasSub sub.toList s.toList

/-- The rating lookup of src/web.py lines 30 to 33 (identical in
src/unnamed/part_000 lines 124 to 126): a dictionary get with a None
default, so any label outside the five spelled-out numerals yields
none. -/
def parse_rating (rating_class : String) : Option Nat :=
  if rating_class = "One" then some 1
  else if rating_class = "Two" then some 2
  else if rating_class = "Three" then some 3
  else if rating_class = "Four" then some 4
  else if rating_class = "Five" then some 5
  else none

/-- One parsed product_pod element of a listing page, as read by
src/web.py lines 80 to 98: the title attribute of the anchor, the text
of the price element when present, the class list of the star-rating
element when present, and the href of the anchor. -/
structure Pod where
  titleAttr : Option String
  priceText : Option String
  ratingClasses : Option (List String)
  href : Option String
deriving DecidableEq

/-- The listing-derived fields of one item, computed before the detail
fetch (src/web.py lines 81 to 98). -/
structure Candidate where
  title : String
  price : String
  rating : Option Nat
  link : String
deriving DecidableEq

/-- One extracted record (src/web.py lines 112 to 119). -/
structure Record where
  title : String
  price : String
  rating : Option Nat
  availability : String
  page : Nat
  link : String
deriving DecidableEq

/-- Classified outcome of the detail-page fetch-and-parse of src/web.py
lines 102 to 110: a body carrying the availability element text when
that markup is present, or any raised exception (missing page, transport
failure, bad status). -/
inductive DetailOutcome where
  | body (availText : Option String)
  | failure (msg : String)
deriving DecidableEq

/-- Classified outcome of a listing-page fetch (src/web.py lines 62 to
70): a parsed body given as its product_pod elements, the 404 status, or
any other raised exception. -/
inductive PageOutcome where
  | body (pods : List Pod)
  | notFound
  | transportError (msg : String)
deriving DecidableEq

/-- The external world of one crawl: the site response for listing URLs,
the site response for detail URLs, and the urljoin library routine. -/
structure Env where
  listing : String → PageOutcome
  detail : String → DetailOutcome
  urljoin : String → String → String

/-- The per-pod extraction of src/web.py lines 81 to 98: title attribute
with empty default then stripped, price text stripped when the element
exists, rating parsed from the second class of the star-rating element
when the class list has more than one entry, and link resolved with
urljoin against the page URL (both branches of the source conditional
make the same call). -/
def candidateOfPod (urljoin : String → String → String) (page_url : String) (prod : Pod) : Candidate :=
  { title := pyStrip (prod.titleAttr.getD "")
  , price :=
      match prod.priceText with
      | some t => pyStrip t
      | none => ""
  , rating :=
      match prod.ratingClasses with
      | some (_ :: c :: _) => parse_rating c
      | _ => none
  , link := urljoin page_url (prod.href.getD "") }

/-- The availability computed from a detail fetch outcome (src/web.py
lines 101 to 110): normalized element text on success with the markup
present, and the empty string both when the markup is absent and when
the fetch raised. -/
def availabilityOf : DetailOutcome → String
  | DetailOutcome.body (some t) => normalizeWs t
  | DetailOutcome.body none => ""
  | DetailOutcome.failure _ => ""

/-- The record appended for one candidate (src/web.py lines 112 to 119):
every listing-derived field copied from the candidate, availability from
the detail outcome, page index from the loop counter. -/
def mkRecord (page_num : Nat) (c : Candidate) (d : DetailOutcome) : Record :=
  { title := c.title
  , price := c.price
  , rating := c.rating
  , availability := availabilityOf d
  , page := page_num
  , link := c.link }

/-- The page-URL rule of src/web.py lines 52 to 60, applied to the
already slash-stripped start URL: page one is that URL itself; later
pages replace a trailing index.html by page-N.html under the same base,
or append page-N.html otherwise. -/
def pageUrlFor (url : String) (page_num : Nat) : String :=
  if page_num = 1 then url
  else if pyEndsWith url "index.html" then
    pyBeforeLastSlash url ++ "/page-" ++ toString page_num ++ ".html"
  else
    pyRstripSlash url ++ "/page-" ++ toString page_num ++ ".html"

/-- The loop-exit test of src/web.py line 126: in Python, the test
max_pages and page_num greater than max_pages is false when max_pages is
None or zero (falsy), so a zero cap never stops the loop. -/
def maxPagesTriggers : Option Int → Nat → Bool
  | none, _ => false
  | some m, page_num => (m != 0) && decide ((m : Int) < (page_num : Int))

/-- Result of a crawl: the returned record list, or the RuntimeError
raised at src/web.py line 70, which carries no records. -/
inductive CrawlOutcome where
  | ok (records : List Record)
  | error (msg : String)
deriving DecidableEq

/-- The records carried by a crawl outcome: a raised error delivers
none. -/
def recordsOf : CrawlOutcome → List Record
  | CrawlOutcome.ok rs => rs
  | CrawlOutcome.error _ => []

/-- The records the loop body of src/web.py lines 80 to 119 produces for
one listing page, given the environment. -/
def pageRecords (env : Env) (u : String) (p : Nat) : List Record :=
  match env.listing (pageUrlFor u p) with
  | PageOutcome.body pods =>
      pods.map (fun prod =>
        let c := candidateOfPod env.urljoin (pageUrlFor u p) prod
        mkRecord p c (env.detail c.link))
  | _ => []

/-- The while loop of src/web.py lines 47 to 127, with the listing URLs
actually fetched recorded as a trace, a fuel bound standing in for the
unbounded while, and the stop flag read as a function of the page index
about to be processed (the flag is polled exactly once per iteration, at
the top).  Fuel exhaustion yields none in the outcome component. -/
def crawlLoop (env : Env) (u : String) (mp : Option Int) (stop : Nat → Bool) :
    Nat → Nat → List Record → List String → List String × Option CrawlOutcome
  | 0, _, _, trace => (trace, none)
  | Nat.succ fuel, page_num, results, trace =>
    if stop page_num then (trace, some (CrawlOutcome.ok results))
    else
      let page_url := pageUrlFor u page_num
      let trace2 := trace ++ [page_url]
      match env.listing page_url with
      | PageOutcome.notFound => (trace2, some (CrawlOutcome.ok results))
      | PageOutcome.transportError e =>
          (trace2, some (CrawlOutcome.error
            ("Failed to fetch page " ++ toString page_num ++ " (" ++ page_url ++ "): " ++ e)))
      | PageOutcome.body pods =>
        if pods.isEmpty then (trace2, some (CrawlOutcome.ok results))
        else
          let recs := pods.map (fun prod =>
            let c := candidateOfPod env.urljoin page_url prod
            mkRecord page_num c (env.detail c.link))
          if maxPagesTriggers mp (page_num + 1) then
            (trace2, some (CrawlOutcome.ok (results ++ recs)))
          else
            crawlLoop env u mp stop fuel (page_num + 1) (results ++ recs) trace2

/-- The crawl entry point of src/web.py lines 35 to 129: strip trailing
slashes from the start URL, then run the page loop from page one with
empty accumulators. -/
def scrape_books_toscrape (env : Env) (start_url : String) (max_pages : Option Int)
    (stop : Nat → Bool) (fuel : Nat) : List String × Option CrawlOutcome :=
  crawlLoop env (pyRstripSlash start_url) max_pages stop fuel 1 [] []

/-- The listing URLs of consecutive pages, counted from a first page
index. -/
def pagesTrace (u : String) : Nat → Nat → List String
  | _, 0 => []
  | p0, Nat.succ n => pageUrlFor u p0 :: pagesTrace u (p0 + 1) n

/-- The records of consecutive listing pages, counted from a first page
index. -/
def pagesRecords (env : Env) (u : String) : Nat → Nat → List Record
  | _, 0 => []
  | p0, Nat.succ n => pageRecords env u p0 ++ pagesRecords env u (p0 + 1) n

/-- A parsed single-book detail page as read by scrape_single_book
(src/unnamed/part_000 lines 129 to 154): the page heading text, price
element text, star-rating class list, and availability element text,
each when the markup is present. -/
structure DetailPageDoc where
  titleText : Option String
  priceText : Option String
  ratingClasses : Option (List String)
  availText : Option String
deriving DecidableEq

/-- Classified outcome of the single-book page fetch: a parsed body, or
any raised exception. -/
inductive SinglePageOutcome where
  | body (doc : DetailPageDoc)
  | failure (msg : String)
deriving DecidableEq

/-- The single-book entry mode of src/unnamed/part_000 lines 129 to 154,
with the fetched URLs recorded as a trace: one fetch of the given URL; a
fetch failure propagates, a missing heading or price element raises the
Python attribute error, and success yields exactly one record whose page
field is the fixed constant four of line 151 and whose link is the URL
itself. -/
def scrape_single_book (fetch : String → SinglePageOutcome) (url : String) :
    List String × Except String (List Record) :=
  ( [url]
  , match fetch url with
    | SinglePageOutcome.failure m => Except.error m
    | SinglePageOutcome.body doc =>
      match doc.titleText, doc.priceText with
      | some t, some p =>
        Except.ok
          [ { title := pyStrip t
            , price := pyStrip p
            , rating :=
                match doc.ratingClasses with
                | some (_ :: c :: _) => parse_rating c
                | _ => none
            , availability :=
                match doc.availText with
                | some a => normalizeWs a
                | none => ""
            , page := 4
            , link := url } ]
      | _, _ => Except.error "AttributeError" )

/-- The dispatch test of src/unnamed/part_000 line 312: the URL contains
the catalogue path segment and ends with the html extension. -/
def is_single_book_url (url : String) : Bool :=
  pyContains url "catalogue/" && pyEndsWith url ".html"

/-- Which scraper the worker thread of src/unnamed/part_000 lines 310 to
317 invokes. -/
inductive RouteChoice where
  | single
  | category
deriving DecidableEq

/-- The routing decision of src/unnamed/part_000 lines 312 to 317. -/
def scrape_thread_route (url : String) : RouteChoice :=
  if is_single_book_url url then RouteChoice.single else RouteChoice.category

/-- Model of save_to_mysql (src/web.py lines 141 to 163) acting on the
committed contents of the target table, which is absent when none.  The
MySQL data-definition statements the function issues, DROP TABLE and
CREATE TABLE, commit implicitly and immediately; the row inserts are
data-manipulation statements, durable only after the final commit.  The
failStep argument selects which step raises, in source order: zero the
connect, one the drop, two the create, three the executemany, four the
commit; none or five and above means every step succeeds.  The result
pairs the raised-or-ok outcome with the committed table contents
afterwards. -/
def save_to_mysql (prior : Option (List (List String))) (rows : List (List String))
    (failStep : Option Nat) : Except String Unit × Option (List (List String)) :=
  match failStep with
  | some 0 => (Except.error "connect failed", prior)
  | some 1 => (Except.error "drop failed", prior)
  | some 2 => (Except.error "create failed", none)
  | some 3 => (Except.error "executemany failed", some [])
  | some 4 => (Except.error "commit failed", some [])
  | _ => (Except.ok (), some rows)

/-- The listing-derived fields of a record, for comparing crawls that
differ only in detail-fetch outcomes. -/
def listingView (r : Record) : String × String × Option Nat × Nat × String :=
  (r.title, r.price, r.rating, r.page, r.link)

/-- A crawl outcome up to availability: whether it returned or raised,
and the listing-derived fields of its records. -/
def outcomeView : Option CrawlOutcome → Option (Bool × List (String × String × Option Nat × Nat × String))
  | none => none
  | some (CrawlOutcome.ok rs) => some (true, rs.map listingView)
  | some (CrawlOutcome.error _) => some (false, [])

/-- The one record scrape_single_book builds on a successful fetch whose
heading text is t and price text is p (src/unnamed/part_000 lines 136 to
153). -/
def singleBookRecord (doc : DetailPageDoc) (url t p : String) : Record :=
  { title := pyStrip t
  , price := pyStrip p
  , rating :=
      match doc.ratingClasses with
      | some (_ :: c :: _) => parse_rating c
      | _ => none
  , availability :=
      match doc.availText with
      | some a => normalizeWs a
      | none => ""
  , page := 4
  , link := url }

/-- A concrete product_pod used by the concrete evaluations below. -/
def podA : Pod :=
  { titleAttr := some " T ", priceText := some "9", ratingClasses := some ["star-rating", "Three"]
  , href := some "x" }

/-- A concrete site with one listing page at the URL u and a transport
failure everywhere else. -/
def listingU : String → PageOutcome :=
  fun s => if s = "u" then PageOutcome.body [podA] else PageOutcome.transportError "boom"

/-- Concrete environment over listingU whose detail fetches all fail. -/
def envFail : Env :=
  { listing := listingU, detail := fun _ => DetailOutcome.failure "dead", urljoin := fun _ r => r }

/-- Concrete environment over listingU whose detail fetches all succeed
with availability markup present. -/
def envOkDetail : Env :=
  { listing := listingU, detail := fun _ => DetailOutcome.body (some " In  stock ")
  , urljoin := fun _ r => r }

/-- Concrete environment answering not-found everywhere. -/
def envNotFound : Env :=
  { listing := fun _ => PageOutcome.notFound, detail := fun _ => DetailOutcome.failure "dead"
  , urljoin := fun _ r => r }

/-- Concrete environment with one listing page at the URL a and
not-found everywhere else. -/
def envPageA : Env :=
  { listing := fun s => if s = "a" then PageOutcome.body [podA] else PageOutcome.notFound
  , detail := fun _ => DetailOutcome.failure "dead", urljoin := fun _ r => r }

/-- A concrete single-book detail page. -/
def docA : DetailPageDoc :=
  { titleText := some " A Light in the Attic ", priceText := some "£51.77"
  , ratingClasses := some ["star-rating", "Three"]
  , availText := some " In  stock (22 available) " }

end BooksToScrape
namespace BooksToScrape

theorem crawlLoop_step_body (env : Env) (u : String) (mp : Option Int) (stop : Nat → Bool)
    (fuel p : Nat) (results : List Record) (trace : List String)
    (hs : stop p = false) (pods : List Pod)
    (hb : env.listing (pageUrlFor u p) = PageOutcome.body pods) (hne : pods ≠ [])
    (hmp : maxPagesTriggers mp (p + 1) = false) :
    crawlLoop env u mp stop (fuel + 1) p results trace
      = crawlLoop env u mp stop fuel (p + 1)
          (results ++ pageRecords env u p) (trace ++ [pageUrlFor u p]) := by
  have hie : pods.isEmpty = false := by
    cases pods with
    | nil => exact absurd rfl hne
    | cons a t => rfl
  simp [crawlLoop, hs, hb, hie, hmp, pageRecords]

theorem crawlLoop_run (env : Env) (u : String) (mp : Option Int) (stop : Nat → Bool) :
    ∀ (n fuel p0 : Nat) (results : List Record) (trace : List String),
      (∀ i, i < n → stop (p0 + i) = false) →
      (∀ i, i < n → ∃ pods, env.listing (pageUrlFor u (p0 + i)) = PageOutcome.body pods ∧ pods ≠ []) →
      (∀ i, i < n → maxPagesTriggers mp (p0 + i + 1) = false) →
      n ≤ fuel →
      crawlLoop env u mp stop fuel p0 results trace
        = crawlLoop env u mp stop (fuel - n) (p0 + n)
            (results ++ pagesRecords env u p0 n) (trace ++ pagesTrace u p0 n) := by
  intro n
  induction n with
  | zero =>
    intro fuel p0 results trace _ _ _ _
    simp [pagesRecords, pagesTrace]
  | succ n ih =>
    intro fuel p0 results trace hs hb hmp hf
    obtain ⟨f, rfl⟩ : ∃ f, fuel = f + 1 := ⟨fuel - 1, by omega⟩
    obtain ⟨pods, hpods, hne⟩ := hb 0 (by omega)
    rw [crawlLoop_step_body env u mp stop f p0 results trace
          (by simpa using hs 0 (by omega)) pods (by simpa using hpods) hne
          (by simpa using hmp 0 (by omega))]
    rw [ih f (p0 + 1) (results ++ pageRecords env u p0) (trace ++ [pageUrlFor u p0])
          (fun i hi => by
            have h := hs (i + 1) (by omega)
            have he : p0 + 1 + i = p0 + (i + 1) := by omega
            rw [he]; exact h)
          (fun i hi => by
            have h := hb (i + 1) (by omega)
            have he : p0 + 1 + i = p0 + (i + 1) := by omega
            rw [he]; exact h)
          (fun i hi => by
            have h := hmp (i + 1) (by omega)
            have he : p0 + 1 + i = p0 + (i + 1) := by omega
            rw [he]; exact h)
          (by omega)]
    have hfe : f + 1 - (n + 1) = f - n := by omega
    have hpe : p0 + 1 + n = p0 + (n + 1) := by omega
    rw [hfe, hpe]
    simp [pagesRecords, pagesTrace, List.append_assoc]

end BooksToScrape
namespace BooksToScrape

theorem pagesTrace_get (u : String) :
    ∀ (k p0 i : Nat) (h : i < (pagesTrace u p0 k).length),
      (pagesTrace u p0 k).get ⟨i, h⟩ = pageUrlFor u (p0 + i) := by
  intro k
  induction k with
  | zero => intro p0 i h; simp [pagesTrace] at h
  | succ k ih =>
    intro p0 i h
    cases i with
    | zero => simp [pagesTrace]
    | succ i =>
      have h2 : i < (pagesTrace u (p0 + 1) k).length := by
        simpa [pagesTrace] using h
      have := ih (p0 + 1) i h2
      have he : p0 + 1 + i = p0 + (i + 1) := by omega
      rw [he] at this
      simpa [pagesTrace] using this

theorem crawlLoop_trace_shape (env : Env) (u : String) (mp : Option Int) (stop : Nat → Bool) :
    ∀ (fuel p0 : Nat) (results : List Record) (trace : List String),
      ∃ k, (crawlLoop env u mp stop fuel p0 results trace).1 = trace ++ pagesTrace u p0 k := by
  intro fuel
  induction fuel with
  | zero => intro p0 results trace; exact ⟨0, by simp [crawlLoop, pagesTrace]⟩
  | succ f ih =>
    intro p0 results trace
    by_cases hs : stop p0 = true
    · exact ⟨0, by simp [crawlLoop, hs, pagesTrace]⟩
    · have hs2 : stop p0 = false := by simpa using hs
      cases hl : env.listing (pageUrlFor u p0) with
      | notFound =>
        exact ⟨1, by simp [crawlLoop, hs2, hl, pagesTrace]⟩
      | transportError e =>
        exact ⟨1, by simp [crawlLoop, hs2, hl, pagesTrace]⟩
      | body pods =>
        cases pods with
        | nil => exact ⟨1, by simp [crawlLoop, hs2, hl, pagesTrace]⟩
        | cons a t =>
          by_cases hmp : maxPagesTriggers mp (p0 + 1) = true
          · exact ⟨1, by simp [crawlLoop, hs2, hl, hmp, pagesTrace]⟩
          · have hmp2 : maxPagesTriggers mp (p0 + 1) = false := by simpa using hmp
            obtain ⟨k, hk⟩ := ih (p0 + 1)
              (results ++ (a :: t).map (fun prod =>
                mkRecord p0 (candidateOfPod env.urljoin (pageUrlFor u p0) prod)
                  (env.detail (candidateOfPod env.urljoin (pageUrlFor u p0) prod).link)))
              (trace ++ [pageUrlFor u p0])
            refine ⟨k + 1, ?_⟩
            have hred : (crawlLoop env u mp stop (f + 1) p0 results trace).1
                = (crawlLoop env u mp stop f (p0 + 1)
                    (results ++ (a :: t).map (fun prod =>
                      mkRecord p0 (candidateOfPod env.urljoin (pageUrlFor u p0) prod)
                        (env.detail (candidateOfPod env.urljoin (pageUrlFor u p0) prod).link)))
                    (trace ++ [pageUrlFor u p0])).1 := by
              simp [crawlLoop, hs2, hl, hmp2]
            rw [hred, hk]
            simp [pagesTrace]

theorem crawlLoop_ok_end (env : Env) (u : String) :
    ∀ (fuel p0 : Nat) (results : List Record) (trace tr : List String) (recs : List Record),
      crawlLoop env u none (fun _ => false) fuel p0 results trace = (tr, some (CrawlOutcome.ok recs)) →
      ∃ j, (env.listing (pageUrlFor u (p0 + j)) = PageOutcome.notFound ∨
              env.listing (pageUrlFor u (p0 + j)) = PageOutcome.body []) ∧
           tr = trace ++ pagesTrace u p0 (j + 1) := by
  intro fuel
  induction fuel with
  | zero =>
    intro p0 results trace tr recs h
    simp [crawlLoop] at h
  | succ f ih =>
    intro p0 results trace tr recs h
    cases hl : env.listing (pageUrlFor u p0) with
    | notFound =>
      refine ⟨0, by simp [hl], ?_⟩
      simp [crawlLoop, hl] at h
      simp [pagesTrace, ← h.1]
    | transportError e =>
      simp [crawlLoop, hl] at h
    | body pods =>
      cases pods with
      | nil =>
        refine ⟨0, by simp [hl], ?_⟩
        simp [crawlLoop, hl] at h
        simp [pagesTrace, ← h.1]
      | cons a t =>
        have hmp : maxPagesTriggers none (p0 + 1) = false := rfl
        have h2 : crawlLoop env u none (fun _ => false) f (p0 + 1)
            (results ++ (a :: t).map (fun prod =>
              let c := candidateOfPod env.urljoin (pageUrlFor u p0) prod
              mkRecord p0 c (env.detail c.link)))
            (trace ++ [pageUrlFor u p0]) = (tr, some (CrawlOutcome.ok recs)) := by
          simpa [crawlLoop, hl, hmp] using h
        obtain ⟨j, hend, htr⟩ := ih (p0 + 1) _ _ tr recs h2
        refine ⟨j + 1, ?_, ?_⟩
        · have he : p0 + 1 + j = p0 + (j + 1) := by omega
          rw [he] at hend
          exact hend
        · rw [htr]
          simp [pagesTrace]

end BooksToScrape
namespace BooksToScrape

theorem listingView_mkRecord (p : Nat) (c : Candidate) (d : DetailOutcome) :
    listingView (mkRecord p c d) = (c.title, c.price, c.rating, p, c.link) := rfl

theorem crawlLoop_detail_inv (env1 env2 : Env) (hl : env1.listing = env2.listing)
    (hj : env1.urljoin = env2.urljoin) (u : String) (mp : Option Int) (stop : Nat → Bool) :
    ∀ (fuel p0 : Nat) (r1 r2 : List Record) (trace : List String),
      r1.map listingView = r2.map listingView →
      (crawlLoop env1 u mp stop fuel p0 r1 trace).1 = (crawlLoop env2 u mp stop fuel p0 r2 trace).1 ∧
      outcomeView (crawlLoop env1 u mp stop fuel p0 r1 trace).2
        = outcomeView (crawlLoop env2 u mp stop fuel p0 r2 trace).2 := by
  intro fuel
  induction fuel with
  | zero =>
    intro p0 r1 r2 trace hr
    simp [crawlLoop, outcomeView]
  | succ f ih =>
    intro p0 r1 r2 trace hr
    by_cases hs : stop p0 = true
    · simp [crawlLoop, hs, outcomeView, hr]
    · have hs2 : stop p0 = false := by simpa using hs
      have hl2 : env2.listing (pageUrlFor u p0) = env1.listing (pageUrlFor u p0) := by rw [hl]
      cases hle : env1.listing (pageUrlFor u p0) with
      | notFound =>
        rw [hle] at hl2
        simp [crawlLoop, hs2, hle, hl2, outcomeView, hr]
      | transportError e =>
        rw [hle] at hl2
        simp [crawlLoop, hs2, hle, hl2, outcomeView]
      | body pods =>
        rw [hle] at hl2
        have hmap : ∀ (ps : List Pod),
            (ps.map (fun prod =>
              mkRecord p0 (candidateOfPod env1.urljoin (pageUrlFor u p0) prod)
                (env1.detail (candidateOfPod env1.urljoin (pageUrlFor u p0) prod).link))).map listingView
            = (ps.map (fun prod =>
              mkRecord p0 (candidateOfPod env2.urljoin (pageUrlFor u p0) prod)
                (env2.detail (candidateOfPod env2.urljoin (pageUrlFor u p0) prod).link))).map listingView := by
          intro ps
          simp only [List.map_map]
          apply List.map_congr_left
          intro prod _
          simp [Function.comp, listingView_mkRecord, hj]
        cases pods with
        | nil =>
          simp [crawlLoop, hs2, hle, hl2, outcomeView, hr]
        | cons a t =>
          by_cases hmp : maxPagesTriggers mp (p0 + 1) = true
          · have hr2 : (r1 ++ (a :: t).map (fun prod =>
                mkRecord p0 (candidateOfPod env1.urljoin (pageUrlFor u p0) prod)
                  (env1.detail (candidateOfPod env1.urljoin (pageUrlFor u p0) prod).link))).map listingView
                = (r2 ++ (a :: t).map (fun prod =>
                mkRecord p0 (candidateOfPod env2.urljoin (pageUrlFor u p0) prod)
                  (env2.detail (candidateOfPod env2.urljoin (pageUrlFor u p0) prod).link))).map listingView := by
              simp only [List.map_append, hr, hmap (a :: t)]
            have hredA : crawlLoop env1 u mp stop (f + 1) p0 r1 trace
                = (trace ++ [pageUrlFor u p0], some (CrawlOutcome.ok (r1 ++ (a :: t).map (fun prod =>
                    mkRecord p0 (candidateOfPod env1.urljoin (pageUrlFor u p0) prod)
                      (env1.detail (candidateOfPod env1.urljoin (pageUrlFor u p0) prod).link))))) := by
              simp [crawlLoop, hs2, hle, hmp]
            have hredB : crawlLoop env2 u mp stop (f + 1) p0 r2 trace
                = (trace ++ [pageUrlFor u p0], some (CrawlOutcome.ok (r2 ++ (a :: t).map (fun prod =>
                    mkRecord p0 (candidateOfPod env2.urljoin (pageUrlFor u p0) prod)
                      (env2.detail (candidateOfPod env2.urljoin (pageUrlFor u p0) prod).link))))) := by
              simp [crawlLoop, hs2, hl2, hmp]
            rw [hredA, hredB]
            refine ⟨rfl, ?_⟩
            simp only [outcomeView]
            rw [hr2]
          · have hmp2 : maxPagesTriggers mp (p0 + 1) = false := by simpa using hmp
            have hr2 : (r1 ++ (a :: t).map (fun prod =>
                mkRecord p0 (candidateOfPod env1.urljoin (pageUrlFor u p0) prod)
                  (env1.detail (candidateOfPod env1.urljoin (pageUrlFor u p0) prod).link))).map listingView
                = (r2 ++ (a :: t).map (fun prod =>
                mkRecord p0 (candidateOfPod env2.urljoin (pageUrlFor u p0) prod)
                  (env2.detail (candidateOfPod env2.urljoin (pageUrlFor u p0) prod).link))).map listingView := by
              simp only [List.map_append, hr, hmap (a :: t)]
            have hredA : crawlLoop env1 u mp stop (f + 1) p0 r1 trace
                = crawlLoop env1 u mp stop f (p0 + 1)
                    (r1 ++ (a :: t).map (fun prod =>
                      mkRecord p0 (candidateOfPod env1.urljoin (pageUrlFor u p0) prod)
                        (env1.detail (candidateOfPod env1.urljoin (pageUrlFor u p0) prod).link)))
                    (trace ++ [pageUrlFor u p0]) := by
              simp [crawlLoop, hs2, hle, hmp2]
            have hredB : crawlLoop env2 u mp stop (f + 1) p0 r2 trace
                = crawlLoop env2 u mp stop f (p0 + 1)
                    (r2 ++ (a :: t).map (fun prod =>
                      mkRecord p0 (candidateOfPod env2.urljoin (pageUrlFor u p0) prod)
                        (env2.detail (candidateOfPod env2.urljoin (pageUrlFor u p0) prod).link)))
                    (trace ++ [pageUrlFor u p0]) := by
              simp [crawlLoop, hs2, hl2, hmp2]
            rw [hredA, hredB]
            exact ih (p0 + 1) _ _ (trace ++ [pageUrlFor u p0]) hr2

theorem parse_rating_range (s : String) (k : Nat) (h : parse_rating s = some k) :
    1 ≤ k ∧ k ≤ 5 := by
  unfold parse_rating at h
  split_ifs at h <;> simp_all <;> omega

theorem candidateOfPod_rating (urljoin : String → String → String) (pu : String) (prod : Pod) :
    (candidateOfPod urljoin pu prod).rating = none ∨
      ∃ k, (candidateOfPod urljoin pu prod).rating = some k ∧ 1 ≤ k ∧ k ≤ 5 := by
  unfold candidateOfPod
  cases hrc : prod.ratingClasses with
  | none => simp
  | some classes =>
    cases classes with
    | nil => simp
    | cons c1 rest =>
      cases rest with
      | nil => simp
      | cons c2 rest2 =>
        cases hp : parse_rating c2 with
        | none => simp [hp]
        | some k =>
          right
          exact ⟨k, by simp [hp], parse_rating_range c2 k hp⟩

theorem crawlLoop_rating_inv (env : Env) (u : String) (mp : Option Int) (stop : Nat → Bool) :
    ∀ (fuel p0 : Nat) (results : List Record) (trace tr : List String) (out : CrawlOutcome),
      (∀ r ∈ results, r.rating = none ∨ ∃ k, r.rating = some k ∧ 1 ≤ k ∧ k ≤ 5) →
      crawlLoop env u mp stop fuel p0 results trace = (tr, some out) →
      ∀ r ∈ recordsOf out, r.rating = none ∨ ∃ k, r.rating = some k ∧ 1 ≤ k ∧ k ≤ 5 := by
  intro fuel
  induction fuel with
  | zero =>
    intro p0 results trace tr out hres h
    simp [crawlLoop] at h
  | succ f ih =>
    intro p0 results trace tr out hres h
    by_cases hs : stop p0 = true
    · have : out = CrawlOutcome.ok results := by
        simp [crawlLoop, hs] at h
        exact h.2.symm
      subst this
      simpa [recordsOf] using hres
    · have hs2 : stop p0 = false := by simpa using hs
      cases hle : env.listing (pageUrlFor u p0) with
      | notFound =>
        have : out = CrawlOutcome.ok results := by
          simp [crawlLoop, hs2, hle] at h
          exact h.2.symm
        subst this
        simpa [recordsOf] using hres
      | transportError e =>
        have : recordsOf out = [] := by
          simp [crawlLoop, hs2, hle] at h
          rw [← h.2]
          rfl
        simp [this]
      | body pods =>
        have hnew : ∀ r ∈ results ++ pods.map (fun prod =>
            mkRecord p0 (candidateOfPod env.urljoin (pageUrlFor u p0) prod)
              (env.detail (candidateOfPod env.urljoin (pageUrlFor u p0) prod).link)),
            r.rating = none ∨ ∃ k, r.rating = some k ∧ 1 ≤ k ∧ k ≤ 5 := by
          intro r hr
          rcases List.mem_append.mp hr with hr1 | hr2
          · exact hres r hr1
          · obtain ⟨prod, _, rfl⟩ := List.mem_map.mp hr2
            have := candidateOfPod_rating env.urljoin (pageUrlFor u p0) prod
            simpa [mkRecord] using this
        cases pods with
        | nil =>
          have : out = CrawlOutcome.ok results := by
            simp [crawlLoop, hs2, hle] at h
            exact h.2.symm
          subst this
          simpa [recordsOf] using hres
        | cons a t =>
          by_cases hmp : maxPagesTriggers mp (p0 + 1) = true
          · have : out = CrawlOutcome.ok (results ++ (a :: t).map (fun prod =>
                mkRecord p0 (candidateOfPod env.urljoin (pageUrlFor u p0) prod)
                  (env.detail (candidateOfPod env.urljoin (pageUrlFor u p0) prod).link))) := by
              simp [crawlLoop, hs2, hle, hmp] at h
              exact h.2.symm
            subst this
            simpa [recordsOf] using hnew
          · have hmp2 : maxPagesTriggers mp (p0 + 1) = false := by simpa using hmp
            have h2 : crawlLoop env u mp stop f (p0 + 1)
                (results ++ (a :: t).map (fun prod =>
                  mkRecord p0 (candidateOfPod env.urljoin (pageUrlFor u p0) prod)
                    (env.detail (candidateOfPod env.urljoin (pageUrlFor u p0) prod).link)))
                (trace ++ [pageUrlFor u p0]) = (tr, some out) := by
              simpa [crawlLoop, hs2, hle, hmp2] using h
            exact ih (p0 + 1) _ _ tr out hnew h2

theorem crawlLoop_mp_congr (env : Env) (u : String) (stop : Nat → Bool) (mp1 mp2 : Option Int)
    (h : ∀ p, maxPagesTriggers mp1 p = maxPagesTriggers mp2 p) :
    ∀ (fuel p0 : Nat) (results : List Record) (trace : List String),
      crawlLoop env u mp1 stop fuel p0 results trace = crawlLoop env u mp2 stop fuel p0 results trace := by
  intro fuel
  induction fuel with
  | zero => intro p0 results trace; rfl
  | succ f ih =>
    intro p0 results trace
    by_cases hs : stop p0 = true
    · simp [crawlLoop, hs]
    · have hs2 : stop p0 = false := by simpa using hs
      cases hle : env.listing (pageUrlFor u p0) with
      | notFound => simp [crawlLoop, hs2, hle]
      | transportError e => simp [crawlLoop, hs2, hle]
      | body pods =>
        cases pods with
        | nil => simp [crawlLoop, hs2, hle]
        | cons a t =>
          by_cases hmp : maxPagesTriggers mp1 (p0 + 1) = true
          · simp [crawlLoop, hs2, hle, hmp, (h (p0 + 1)).symm.trans hmp]
          · have hmp2 : maxPagesTriggers mp1 (p0 + 1) = false := by simpa using hmp
            have hmp3 : maxPagesTriggers mp2 (p0 + 1) = false := (h (p0 + 1)).symm.trans hmp2
            simp only [crawlLoop, hs2, hle, hmp2, hmp3]
            simp [ih (p0 + 1)]

end BooksToScrape
namespace BooksToScrape

theorem pagesTrace_length (u : String) :
    ∀ (k p0 : Nat), (pagesTrace u p0 k).length = k := by
  intro k
  induction k with
  | zero => intro p0; rfl
  | succ k ih => intro p0; simp [pagesTrace, ih (p0 + 1)]

theorem pagesTrace_getq (u : String) :
    ∀ (k p0 i : Nat), i < k → (pagesTrace u p0 k)[i]? = some (pageUrlFor u (p0 + i)) := by
  intro k
  induction k with
  | zero => intro p0 i h; omega
  | succ k ih =>
    intro p0 i h
    cases i with
    | zero => simp [pagesTrace]
    | succ i =>
      have := ih (p0 + 1) i (by omega)
      have he : p0 + 1 + i = p0 + (i + 1) := by omega
      rw [he] at this
      simpa [pagesTrace] using this

theorem pagesTrace_snoc (u : String) :
    ∀ (n p0 : Nat), pagesTrace u p0 (n + 1) = pagesTrace u p0 n ++ [pageUrlFor u (p0 + n)] := by
  intro n
  induction n with
  | zero => intro p0; simp [pagesTrace]
  | succ n ih =>
    intro p0
    have := ih (p0 + 1)
    have he : p0 + 1 + n = p0 + (n + 1) := by omega
    rw [he] at this
    calc pagesTrace u p0 (n + 1 + 1)
        = pageUrlFor u p0 :: pagesTrace u (p0 + 1) (n + 1) := rfl
      _ = pageUrlFor u p0 :: (pagesTrace u (p0 + 1) n ++ [pageUrlFor u (p0 + (n + 1))]) := by rw [this]
      _ = pagesTrace u p0 (n + 1) ++ [pageUrlFor u (p0 + (n + 1))] := by simp [pagesTrace]

theorem crawlLoop_fetches_first (env : Env) (u : String) (mp : Option Int) (stop : Nat → Bool)
    (f p0 : Nat) (results : List Record) (trace : List String) (hs : stop p0 = false) :
    ∃ rest, (crawlLoop env u mp stop (f + 1) p0 results trace).1
      = trace ++ pageUrlFor u p0 :: rest := by
  cases hl : env.listing (pageUrlFor u p0) with
  | notFound => exact ⟨[], by simp [crawlLoop, hs, hl]⟩
  | transportError e => exact ⟨[], by simp [crawlLoop, hs, hl]⟩
  | body pods =>
    cases pods with
    | nil => exact ⟨[], by simp [crawlLoop, hs, hl]⟩
    | cons a t =>
      by_cases hmp : maxPagesTriggers mp (p0 + 1) = true
      · exact ⟨[], by simp [crawlLoop, hs, hl, hmp]⟩
      · have hmp2 : maxPagesTriggers mp (p0 + 1) = false := by simpa using hmp
        obtain ⟨k, hk⟩ := crawlLoop_trace_shape env u mp stop f (p0 + 1)
          (results ++ (a :: t).map (fun prod =>
            mkRecord p0 (candidateOfPod env.urljoin (pageUrlFor u p0) prod)
              (env.detail (candidateOfPod env.urljoin (pageUrlFor u p0) prod).link)))
          (trace ++ [pageUrlFor u p0])
        refine ⟨pagesTrace u (p0 + 1) k, ?_⟩
        have hred : crawlLoop env u mp stop (f + 1) p0 results trace
            = crawlLoop env u mp stop f (p0 + 1)
                (results ++ (a :: t).map (fun prod =>
                  mkRecord p0 (candidateOfPod env.urljoin (pageUrlFor u p0) prod)
                    (env.detail (candidateOfPod env.urljoin (pageUrlFor u p0) prod).link)))
                (trace ++ [pageUrlFor u p0]) := by
          simp [crawlLoop, hs, hl, hmp2]
        rw [hred, hk]
        simp

end BooksToScrape
namespace BooksToScrape

/-- C1: for every candidate whose detail fetch or parse fails, or whose
detail page lacks the availability markup, the enrichment step returns a
Record with availability equal to the empty string and every
listing-derived field (title, price, rating, page, link) unchanged from
the candidate; and the crawl control flow is independent of detail
outcomes: two environments agreeing on listing fetches and urljoin
produce the same fetch trace, the same termination kind, and records
agreeing on all listing-derived fields, whatever their detail fetches
do. -/
theorem claim1_enrichment_best_effort :
    (∀ (n : Nat) (c : Candidate) (m : String),
        mkRecord n c (DetailOutcome.failure m)
          = { title := c.title, price := c.price, rating := c.rating
            , availability := "", page := n, link := c.link }) ∧
    (∀ (n : Nat) (c : Candidate),
        mkRecord n c (DetailOutcome.body none)
          = { title := c.title, price := c.price, rating := c.rating
            , availability := "", page := n, link := c.link }) ∧
    (∀ (env1 env2 : Env), env1.listing = env2.listing → env1.urljoin = env2.urljoin →
      ∀ (start_url : String) (mp : Option Int) (stop : Nat → Bool) (fuel : Nat),
        (scrape_books_toscrape env1 start_url mp stop fuel).1
          = (scrape_books_toscrape env2 start_url mp stop fuel).1 ∧
        outcomeView (scrape_books_toscrape env1 start_url mp stop fuel).2
          = outcomeView (scrape_books_toscrape env2 start_url mp stop fuel).2) := by
  refine ⟨fun n c m => rfl, fun n c => rfl, ?_⟩
  intro env1 env2 hl hj start_url mp stop fuel
  exact crawlLoop_detail_inv env1 env2 hl hj (pyRstripSlash start_url) mp stop fuel 1 [] [] [] rfl

theorem claim1_enrichment_best_effort_witness :
    mkRecord 1 ⟨"T", "9", some 3, "x"⟩ (DetailOutcome.failure "dead")
      = ⟨"T", "9", some 3, "", 1, "x"⟩ ∧
    (scrape_books_toscrape envOkDetail "u" none (fun _ => false) 5).1
      = (scrape_books_toscrape envFail "u" none (fun _ => false) 5).1 :=
  ⟨claim1_enrichment_best_effort.1 1 ⟨"T", "9", some 3, "x"⟩ "dead",
   (claim1_enrichment_best_effort.2.2 envOkDetail envFail rfl rfl "u" none (fun _ => false) 5).1⟩

/-- C2 counterexample: page one yields a record and page two fails with
a transport error, yet the function raises, so the delivered outcome
carries no records at all; the accumulated page-one record is not part
of what the caller receives. -/
theorem claim2_partial_records_counterexample :
    (scrape_books_toscrape envFail "u" none (fun _ => false) 5).2
      = some (CrawlOutcome.error "Failed to fetch page 2 (u/page-2.html): boom") ∧
    recordsOf (CrawlOutcome.error "Failed to fetch page 2 (u/page-2.html): boom") = [] ∧
    pageRecords envFail "u" 1 ≠ [] := by
  refine ⟨by decide, rfl, by decide⟩

/-- C2 amended: when the fetch of page n fails with a transport error
after pages one through n minus one succeeded with items, the crawl
raises the failure and the records accumulated so far are discarded,
not delivered with it; in particular a transport error on page one
yields zero records and the failure. -/
theorem claim2_transport_error_discards :
    (∀ (env : Env) (start_url : String) (stop : Nat → Bool) (fuel n : Nat) (e : String),
      (∀ p, stop p = false) →
      (∀ i, i < n → ∃ pods, env.listing (pageUrlFor (pyRstripSlash start_url) (1 + i))
          = PageOutcome.body pods ∧ pods ≠ []) →
      env.listing (pageUrlFor (pyRstripSlash start_url) (1 + n)) = PageOutcome.transportError e →
      n + 1 ≤ fuel →
      scrape_books_toscrape env start_url none stop fuel
        = (pagesTrace (pyRstripSlash start_url) 1 (n + 1),
           some (CrawlOutcome.error
             ("Failed to fetch page " ++ toString (1 + n) ++ " ("
               ++ pageUrlFor (pyRstripSlash start_url) (1 + n) ++ "): " ++ e)))) ∧
    (∀ msg, recordsOf (CrawlOutcome.error msg) = []) := by
  refine ⟨?_, fun msg => rfl⟩
  intro env start_url stop fuel n e hstop hpages htrans hfuel
  unfold scrape_books_toscrape
  rw [crawlLoop_run env (pyRstripSlash start_url) none stop n fuel 1 [] []
        (fun i _ => hstop (1 + i)) hpages (fun i _ => rfl) (by omega)]
  obtain ⟨f, hf⟩ : ∃ f, fuel - n = f + 1 := ⟨fuel - n - 1, by omega⟩
  rw [hf]
  simp [crawlLoop, hstop (1 + n), htrans, pagesTrace_snoc]

theorem claim2_transport_error_discards_witness :
    scrape_books_toscrape envFail "u" none (fun _ => false) 5
      = (pagesTrace (pyRstripSlash "u") 1 (1 + 1),
         some (CrawlOutcome.error
           ("Failed to fetch page " ++ toString (1 + 1) ++ " ("
             ++ pageUrlFor (pyRstripSlash "u") (1 + 1) ++ "): " ++ "boom"))) :=
  claim2_transport_error_discards.1 envFail "u" (fun _ => false) 5 1 "boom"
    (fun _ => rfl)
    (fun i hi => by
      have h0 : i = 0 := by omega
      subst h0
      exact ⟨[podA], by decide, by decide⟩)
    (by decide)
    (by omega)

/-- C3: when the cancellation flag is false at the checks before pages
one through k and has become true at the check after page k, the crawl
returns every record gathered through page k and its fetch trace is
exactly the listing URLs of pages one through k, so no fetch for page
k plus one occurs: cancellation takes effect at the page boundary
only. -/
theorem claim3_cancellation_page_boundary :
    ∀ (env : Env) (start_url : String) (mp : Option Int) (stop : Nat → Bool) (k fuel : Nat),
      (∀ i, i < k → stop (1 + i) = false) →
      stop (1 + k) = true →
      (∀ i, i < k → ∃ pods, env.listing (pageUrlFor (pyRstripSlash start_url) (1 + i))
          = PageOutcome.body pods ∧ pods ≠ []) →
      (∀ i, i < k → maxPagesTriggers mp (1 + i + 1) = false) →
      k + 1 ≤ fuel →
      scrape_books_toscrape env start_url mp stop fuel
        = (pagesTrace (pyRstripSlash start_url) 1 k,
           some (CrawlOutcome.ok (pagesRecords env (pyRstripSlash start_url) 1 k))) := by
  intro env start_url mp stop k fuel hstop hk hpages hmp hfuel
  unfold scrape_books_toscrape
  rw [crawlLoop_run env (pyRstripSlash start_url) mp stop k fuel 1 [] [] hstop hpages hmp (by omega)]
  obtain ⟨f, hf⟩ : ∃ f, fuel - k = f + 1 := ⟨fuel - k - 1, by omega⟩
  rw [hf]
  simp [crawlLoop, hk]

theorem claim3_cancellation_page_boundary_witness :
    scrape_books_toscrape envFail "u" none (fun p => decide (2 ≤ p)) 5
      = (pagesTrace (pyRstripSlash "u") 1 1,
         some (CrawlOutcome.ok (pagesRecords envFail (pyRstripSlash "u") 1 1))) :=
  claim3_cancellation_page_boundary envFail "u" none (fun p => decide (2 ≤ p)) 1 5
    (fun i hi => by
      have h0 : i = 0 := by omega
      subst h0
      rfl)
    rfl
    (fun i hi => by
      have h0 : i = 0 := by omega
      subst h0
      exact ⟨[podA], by decide, by decide⟩)
    (fun i _ => rfl)
    (by omega)

/-- C4: the rating lookup maps the five spelled-out numerals to one
through five, every other label to none, is a function so repeated
calls agree, returns only values in one through five, and every record
a crawl delivers has rating absent or in one through five. -/
theorem claim4_parse_rating_total :
    (parse_rating "One" = some 1 ∧ parse_rating "Two" = some 2 ∧ parse_rating "Three" = some 3 ∧
      parse_rating "Four" = some 4 ∧ parse_rating "Five" = some 5) ∧
    (∀ s, s ≠ "One" → s ≠ "Two" → s ≠ "Three" → s ≠ "Four" → s ≠ "Five" → parse_rating s = none) ∧
    (∀ s, parse_rating s = parse_rating s) ∧
    (∀ s k, parse_rating s = some k → 1 ≤ k ∧ k ≤ 5) ∧
    (∀ (env : Env) (start_url : String) (mp : Option Int) (stop : Nat → Bool) (fuel : Nat)
        (tr : List String) (out : CrawlOutcome),
      scrape_books_toscrape env start_url mp stop fuel = (tr, some out) →
      ∀ r ∈ recordsOf out, r.rating = none ∨ ∃ k, r.rating = some k ∧ 1 ≤ k ∧ k ≤ 5) := by
  refine ⟨⟨rfl, rfl, rfl, rfl, rfl⟩, ?_, fun s => rfl, parse_rating_range, ?_⟩
  · intro s h1 h2 h3 h4 h5
    unfold parse_rating
    split_ifs <;> simp_all
  · intro env start_url mp stop fuel tr out h
    exact crawlLoop_rating_inv env (pyRstripSlash start_url) mp stop fuel 1 [] [] tr out
      (by intro r hr; simp at hr) h

theorem claim4_parse_rating_total_witness :
    parse_rating "Six" = none :=
  claim4_parse_rating_total.2.1 "Six" (by decide) (by decide) (by decide) (by decide) (by decide)

/-- C5 counterexample: with a start URL ending in a slash, the URL
fetched for page one is the slash-stripped form, not the start URL
unchanged. -/
theorem claim5_start_url_counterexample :
    (scrape_books_toscrape envNotFound "http://s/cat/" none (fun _ => false) 3).1
      = ["http://s/cat"] ∧
    "http://s/cat" ≠ "http://s/cat/" := by
  refine ⟨by decide, by decide⟩

/-- C5 amended: page one fetches the start URL with trailing slashes
stripped; for later pages the rule replaces a trailing index.html or
appends page-n.html, over that stripped URL; and the URL fetched at any
position of the trace is a function of the start URL and the page index
alone, independent of the crawl history. -/
theorem claim5_page_url_rule :
    (∀ s, pageUrlFor (pyRstripSlash s) 1 = pyRstripSlash s) ∧
    (∀ u n, 2 ≤ n → pyEndsWith u "index.html" = true →
        pageUrlFor u n = pyBeforeLastSlash u ++ "/page-" ++ toString n ++ ".html") ∧
    (∀ u n, 2 ≤ n → pyEndsWith u "index.html" = false →
        pageUrlFor u n = pyRstripSlash u ++ "/page-" ++ toString n ++ ".html") ∧
    (∀ (env : Env) (start_url : String) (mp : Option Int) (stop : Nat → Bool) (fuel i : Nat),
      i < (scrape_books_toscrape env start_url mp stop fuel).1.length →
      ((scrape_books_toscrape env start_url mp stop fuel).1)[i]?
        = some (pageUrlFor (pyRstripSlash start_url) (1 + i))) := by
  refine ⟨fun s => by simp [pageUrlFor], ?_, ?_, ?_⟩
  · intro u n hn he
    have h1 : n ≠ 1 := by omega
    simp [pageUrlFor, h1, he]
  · intro u n hn he
    have h1 : n ≠ 1 := by omega
    simp [pageUrlFor, h1, he]
  · intro env start_url mp stop fuel i hlen
    obtain ⟨k, hk⟩ := crawlLoop_trace_shape env (pyRstripSlash start_url) mp stop fuel 1 [] []
    have hk2 : (scrape_books_toscrape env start_url mp stop fuel).1
        = pagesTrace (pyRstripSlash start_url) 1 k := by
      simpa [scrape_books_toscrape] using hk
    rw [hk2] at hlen ⊢
    rw [pagesTrace_length] at hlen
    exact pagesTrace_getq (pyRstripSlash start_url) k 1 i hlen

theorem claim5_page_url_rule_witness :
    pageUrlFor "a/index.html" 3
      = pyBeforeLastSlash "a/index.html" ++ "/page-" ++ toString 3 ++ ".html" ∧
    ((scrape_books_toscrape envPageA "a" none (fun _ => false) 2).1)[1]?
      = some (pageUrlFor (pyRstripSlash "a") (1 + 1)) :=
  ⟨claim5_page_url_rule.2.1 "a/index.html" 3 (by omega) (by decide),
   claim5_page_url_rule.2.2.2 envPageA "a" none (fun _ => false) 2 1 (by decide)⟩

/-- C6: with no page cap and the stop flag never set, the crawl returns
normally exactly at the two natural ends: after pages one through n
succeed with items, a not-found response or an item-free body at page
n plus one makes it return the accumulated records with a trace ending
at page n plus one, no later page fetched; and conversely every normal
return arises from such a page, the trace ending there. -/
theorem claim6_natural_end :
    ∀ (env : Env) (start_url : String) (stop : Nat → Bool) (fuel : Nat),
      (∀ p, stop p = false) →
      ((∀ n, (∀ i, i < n → ∃ pods, env.listing (pageUrlFor (pyRstripSlash start_url) (1 + i))
              = PageOutcome.body pods ∧ pods ≠ []) →
          (env.listing (pageUrlFor (pyRstripSlash start_url) (1 + n)) = PageOutcome.notFound ∨
           env.listing (pageUrlFor (pyRstripSlash start_url) (1 + n)) = PageOutcome.body []) →
          n + 1 ≤ fuel →
          scrape_books_toscrape env start_url none stop fuel
            = (pagesTrace (pyRstripSlash start_url) 1 (n + 1),
               some (CrawlOutcome.ok (pagesRecords env (pyRstripSlash start_url) 1 n)))) ∧
       (∀ tr recs,
          scrape_books_toscrape env start_url none stop fuel = (tr, some (CrawlOutcome.ok recs)) →
          ∃ n, (env.listing (pageUrlFor (pyRstripSlash start_url) (1 + n)) = PageOutcome.notFound ∨
                env.listing (pageUrlFor (pyRstripSlash start_url) (1 + n)) = PageOutcome.body []) ∧
               tr = pagesTrace (pyRstripSlash start_url) 1 (n + 1))) := by
  intro env start_url stop fuel hstop
  constructor
  · intro n hpages hend hfuel
    unfold scrape_books_toscrape
    rw [crawlLoop_run env (pyRstripSlash start_url) none stop n fuel 1 [] []
          (fun i _ => hstop (1 + i)) hpages (fun i _ => rfl) (by omega)]
    obtain ⟨f, hf⟩ : ∃ f, fuel - n = f + 1 := ⟨fuel - n - 1, by omega⟩
    rw [hf]
    rcases hend with h404 | hempty
    · simp [crawlLoop, hstop (1 + n), h404, pagesTrace_snoc]
    · simp [crawlLoop, hstop (1 + n), hempty, pagesTrace_snoc]
  · intro tr recs h
    have hsf : stop = fun _ => false := funext fun p => hstop p
    rw [hsf] at h
    obtain ⟨j, hend, htr⟩ :=
      crawlLoop_ok_end env (pyRstripSlash start_url) fuel 1 [] [] tr recs h
    exact ⟨j, hend, by simpa using htr⟩

theorem claim6_natural_end_witness :
    scrape_books_toscrape envNotFound "u" none (fun _ => false) 3
      = (pagesTrace (pyRstripSlash "u") 1 (0 + 1),
         some (CrawlOutcome.ok (pagesRecords envNotFound (pyRstripSlash "u") 1 0))) :=
  (claim6_natural_end envNotFound "u" (fun _ => false) 3 (fun _ => rfl)).1 0
    (fun i hi => absurd hi (by omega))
    (Or.inl (by decide))
    (by omega)

/-- C7 counterexample: a request with a zero page cap is not rejected:
the page-one listing fetch is issued (the trace is nonempty). -/
theorem claim7_nonpositive_counterexample :
    scrape_books_toscrape envNotFound "u" (some 0) (fun _ => false) 3
      = (["u"], some (CrawlOutcome.ok [])) ∧
    (["u"] : List String) ≠ [] := by
  refine ⟨by decide, by decide⟩

/-- C7 amended: a non-positive page cap is never rejected and never
prevents network activity: a zero cap behaves exactly like no cap, a
negative cap still fetches page one and stops right after it, and
whenever the flag is not set before page one the first fetched URL is
the page-one URL. -/
theorem claim7_nonpositive_max_pages :
    (∀ (env : Env) (start_url : String) (stop : Nat → Bool) (fuel : Nat),
        scrape_books_toscrape env start_url (some 0) stop fuel
          = scrape_books_toscrape env start_url none stop fuel) ∧
    (∀ (env : Env) (start_url : String) (stop : Nat → Bool) (fuel : Nat) (m : Int) (pods : List Pod),
        m < 0 → stop 1 = false →
        env.listing (pageUrlFor (pyRstripSlash start_url) 1) = PageOutcome.body pods →
        pods ≠ [] → 1 ≤ fuel →
        scrape_books_toscrape env start_url (some m) stop fuel
          = ([pageUrlFor (pyRstripSlash start_url) 1],
             some (CrawlOutcome.ok (pageRecords env (pyRstripSlash start_url) 1)))) ∧
    (∀ (env : Env) (start_url : String) (mp : Option Int) (stop : Nat → Bool) (fuel : Nat),
        stop 1 = false → 1 ≤ fuel →
        ∃ rest, (scrape_books_toscrape env start_url mp stop fuel).1
          = pageUrlFor (pyRstripSlash start_url) 1 :: rest) := by
  refine ⟨?_, ?_, ?_⟩
  · intro env start_url stop fuel
    unfold scrape_books_toscrape
    exact crawlLoop_mp_congr env (pyRstripSlash start_url) stop (some 0) none
      (fun p => by simp [maxPagesTriggers]) fuel 1 [] []
  · intro env start_url stop fuel m pods hm hs hb hne hfuel
    obtain ⟨f, hf⟩ : ∃ f, fuel = f + 1 := ⟨fuel - 1, by omega⟩
    subst hf
    cases pods with
    | nil => exact absurd rfl hne
    | cons a t =>
      have hmp : maxPagesTriggers (some m) (1 + 1) = true := by
        simp only [maxPagesTriggers, Bool.and_eq_true, bne_iff_ne, decide_eq_true_eq]
        constructor
        · omega
        · push_cast
          omega
      unfold scrape_books_toscrape
      rw [show (1 : Nat) + 1 = 2 from rfl] at hmp
      simp [crawlLoop, hs, hb, hmp, pageRecords]
  · intro env start_url mp stop fuel hs hfuel
    obtain ⟨f, hf⟩ : ∃ f, fuel = f + 1 := ⟨fuel - 1, by omega⟩
    subst hf
    obtain ⟨rest, hr⟩ := crawlLoop_fetches_first env (pyRstripSlash start_url) mp stop f 1 [] [] hs
    exact ⟨rest, by simpa [scrape_books_toscrape] using hr⟩

theorem claim7_nonpositive_max_pages_witness :
    scrape_books_toscrape envFail "u" (some (-1)) (fun _ => false) 5
      = ([pageUrlFor (pyRstripSlash "u") 1],
         some (CrawlOutcome.ok (pageRecords envFail (pyRstripSlash "u") 1))) :=
  claim7_nonpositive_max_pages.2.1 envFail "u" (fun _ => false) 5 (-1) [podA]
    (by decide) rfl (by decide) (by decide) (by omega)

/-- C8 counterexample: when the bulk insert step of the MySQL writer
fails, the destination is neither untouched nor fully replaced: the
prior contents were destroyed by the already-committed drop and create,
leaving an empty fresh table. -/
theorem claim8_mysql_counterexample :
    save_to_mysql (some [["old"]]) [["new"]] (some 3)
      = (Except.error "executemany failed", some []) ∧
    some ([] : List (List String)) ≠ some [["old"]] ∧
    some ([] : List (List String)) ≠ some [["new"]] := by
  refine ⟨rfl, by decide, by decide⟩

/-- C8 amended: the MySQL writer fully replaces the destination only
when every step succeeds; a failure before the drop leaves the
destination untouched, but a failure at the create, insert or commit
step leaves the prior contents destroyed (an absent or empty fresh
table), because the drop and create are data-definition statements that
commit immediately. -/
theorem claim8_mysql_sink_states :
    ∀ (prior : Option (List (List String))) (rows : List (List String)),
      (save_to_mysql prior rows none).2 = some rows ∧
      (save_to_mysql prior rows (some 0)).2 = prior ∧
      (save_to_mysql prior rows (some 1)).2 = prior ∧
      (save_to_mysql prior rows (some 2)).2 = none ∧
      (save_to_mysql prior rows (some 3)).2 = some [] ∧
      (save_to_mysql prior rows (some 4)).2 = some [] := by
  intro prior rows
  exact ⟨rfl, rfl, rfl, rfl, rfl, rfl⟩

/-- C9: a start URL passing the single-book dispatch test routes to
scrape_single_book, which on a successful fetch performs exactly one
fetch of that URL, no listing-page fetch, and yields exactly one record
whose page field is the fixed single-item sentinel four and whose link
is the URL itself. -/
theorem claim9_single_book_mode :
    ∀ (url : String) (fetch : String → SinglePageOutcome) (doc : DetailPageDoc) (t p : String),
      is_single_book_url url = true →
      fetch url = SinglePageOutcome.body doc →
      doc.titleText = some t →
      doc.priceText = some p →
      scrape_thread_route url = RouteChoice.single ∧
      (scrape_single_book fetch url).1 = [url] ∧
      (scrape_single_book fetch url).2 = Except.ok [singleBookRecord doc url t p] ∧
      (singleBookRecord doc url t p).page = 4 ∧
      (singleBookRecord doc url t p).link = url := by
  intro url fetch doc t p hroute hf ht hp
  refine ⟨by simp [scrape_thread_route, hroute], rfl, ?_, rfl, rfl⟩
  simp [scrape_single_book, hf, ht, hp, singleBookRecord]

theorem claim9_single_book_mode_witness :
    scrape_thread_route "catalogue/a_1000/index.html" = RouteChoice.single ∧
    (scrape_single_book (fun _ => SinglePageOutcome.body docA) "catalogue/a_1000/index.html").1
      = ["catalogue/a_1000/index.html"] ∧
    (scrape_single_book (fun _ => SinglePageOutcome.body docA) "catalogue/a_1000/index.html").2
      = Except.ok [singleBookRecord docA "catalogue/a_1000/index.html"
          " A Light in the Attic " "£51.77"] ∧
    (singleBookRecord docA "catalogue/a_1000/index.html" " A Light in the Attic " "£51.77").page
      = 4 ∧
    (singleBookRecord docA "catalogue/a_1000/index.html" " A Light in the Attic " "£51.77").link
      = "catalogue/a_1000/index.html" :=
  claim9_single_book_mode "catalogue/a_1000/index.html"
    (fun _ => SinglePageOutcome.body docA) docA " A Light in the Attic " "£51.77"
    (by decide) rfl rfl rfl

/-- C10: if the stop flag is already set when the crawl is invoked, the
crawl returns the empty record list and its fetch trace is empty: the
flag is polled at the top of every iteration, before the very first
page fetch. -/
theorem claim10_prechecked_stop :
    ∀ (env : Env) (start_url : String) (mp : Option Int) (stop : Nat → Bool) (fuel : Nat),
      stop 1 = true → 1 ≤ fuel →
      scrape_books_toscrape env start_url mp stop fuel = ([], some (CrawlOutcome.ok [])) := by
  intro env start_url mp stop fuel h hfuel
  obtain ⟨f, hf⟩ : ∃ f, fuel = f + 1 := ⟨fuel - 1, by omega⟩
  subst hf
  simp [scrape_books_toscrape, crawlLoop, h]

theorem claim10_prechecked_stop_witness :
    scrape_books_toscrape envFail "u" none (fun _ => true) 5 = ([], some (CrawlOutcome.ok [])) :=
  claim10_prechecked_stop envFail "u" none (fun _ => true) 5 rfl (by omega)

end BooksToScrape
